import Mathlib

/-
Verification model of the StringService repository.

The repository implements a small go-kit style HTTP/JSON service with two
operations, Uppercase and Count, wrapped by logging and instrumenting
middlewares, adapted to endpoints and bound to an HTTP transport.

Modelling conventions:
- a Go string is a list of Unicode scalar values, type GoStr; the Go builtin
  len is the UTF-8 byte length, modelled by goLen;
- a Go error value is a GoError carrying its message; a Go value of the
  error interface type is Option GoError, with none standing for nil;
- a Go context.Context is the opaque type Ctx; both service methods bind it
  to the blank identifier, so the model only requires Ctx to be a type;
- the empty interface used for endpoint requests and responses is modelled
  by the inductive types AnyRequest and AnyResponse, with a nilRequest
  constructor standing for a nil interface value; a failed type assertion,
  which panics in Go, is modelled by returning none from the endpoint;
- the HTTP request body handed to a decoder is a Body: either parsed JSON
  or a byte stream that is not valid JSON; the encoding and decoding
  behaviour of the json package is modelled on the shapes that occur here.
-/

/- Section 1: basic types of the model. -/

abbrev GoStr := List Char

structure Ctx where
  id : Nat
  deriving DecidableEq

structure GoError where
  msg : GoStr
  deriving DecidableEq

/-- Model of the Error method of the Go error interface: it yields the
message stored by errors.New. -/
def GoError.Error (e : GoError) : GoStr := e.msg

/-- ErrEmpty is returned when an input string is empty; its message reads
empty string, as built by errors.New in the source. -/
def ErrEmpty : GoError := ⟨['e', 'm', 'p', 't', 'y', ' ', 's', 't', 'r', 'i', 'n', 'g']⟩

/-- Model of unicode.ToUpper as used by strings.ToUpper: the ASCII range is
mapped by subtracting 32 from a lowercase letter; scalar values outside the
ASCII letters are left unchanged in this model. -/
def toUpperRune (c : Char) : Char :=
  if 97 ≤ c.toNat ∧ c.toNat ≤ 122 then Char.ofNat (c.toNat - 32) else c

/-- Model of strings.ToUpper: the mapping of toUpperRune over every scalar
value of the string. -/
def goToUpper (s : GoStr) : GoStr := s.map toUpperRune

/-- Model of the Go builtin len on strings: the number of bytes of the
UTF-8 encoding, the sum of the per-scalar byte counts. -/
def goLen (s : GoStr) : Nat := (s.map Char.utf8Size).sum

/- Section 2: the service, from src/main.go lines 32 to 42. -/

/-- Uppercase takes a string and uppercases the whole thing; on the empty
string it returns the empty string and ErrEmpty. -/
def stringService.Uppercase (_ctx : Ctx) (s : GoStr) : GoStr × Option GoError :=
  if s = [] then ([], some ErrEmpty)
  else (goToUpper s, none)

/-- Count returns the length of a string. The Go result type int is
modelled by Int. -/
def stringService.Count (_ctx : Ctx) (s : GoStr) : Int :=
  (goLen s : Int)

/-- The StringService interface: one field per method. -/
structure Service where
  Uppercase : Ctx → GoStr → GoStr × Option GoError
  Count : Ctx → GoStr → Int

/-- The concrete stringService value, as constructed in main. -/
def stringServiceImpl : Service :=
  ⟨stringService.Uppercase, stringService.Count⟩

/- Section 3: middlewares. The files defining loggingMiddleware and
instrumentingMiddleware are referenced from main in src/main.go lines 134
and 135 but are not part of the given sources, so they are modelled from
the spec. Side effects are modelled as an explicit list of emitted events;
wall-clock durations are not modelled. -/

/-- One observable side effect of a middleware: a structured log record, a
counter increment, a latency observation, or a count-result observation. -/
inductive Event
  | logRecord (method : GoStr) (isErr : Bool)
  | counterAdd (method : GoStr) (isErr : Bool)
  | latencyObserve (method : GoStr) (isErr : Bool)
  | countResultObserve (n : Int)
  deriving DecidableEq

/-- A Service together with the events each call emits. -/
structure MService where
  Uppercase : Ctx → GoStr → (GoStr × Option GoError) × List Event
  Count : Ctx → GoStr → Int × List Event

/-- A plain Service as an MService emitting no events. -/
def liftService (svc : Service) : MService where
  Uppercase := fun ctx s => (svc.Uppercase ctx s, [])
  Count := fun ctx s => (svc.Count ctx s, [])

def methodUppercase : GoStr := ['u', 'p', 'p', 'e', 'r', 'c', 'a', 's', 'e']

def methodCount : GoStr := ['c', 'o', 'u', 'n', 't']

/-- Modelled from the spec: loggingMiddleware, whose defining file is not
among the given sources. It wraps an inner Service, emits exactly one log
record after delegation completes, carrying the method name and the error
presence, and never alters the delegated result. -/
def loggingMiddleware (next : MService) : MService where
  Uppercase := fun ctx s =>
    let r := next.Uppercase ctx s
    (r.1, r.2 ++ [Event.logRecord methodUppercase r.1.2.isSome])
  Count := fun ctx s =>
    let r := next.Count ctx s
    (r.1, r.2 ++ [Event.logRecord methodCount false])

/-- Modelled from the spec: instrumentingMiddleware, whose defining file is
not among the given sources. It wraps an inner Service, and after
delegation increments the request counter and records the latency, both
labeled by method and error presence; for Count it additionally records
the numeric result. It never alters the delegated result. -/
def instrumentingMiddleware (next : MService) : MService where
  Uppercase := fun ctx s =>
    let r := next.Uppercase ctx s
    (r.1, r.2 ++ [Event.counterAdd methodUppercase r.1.2.isSome,
                  Event.latencyObserve methodUppercase r.1.2.isSome])
  Count := fun ctx s =>
    let r := next.Count ctx s
    (r.1, r.2 ++ [Event.counterAdd methodCount false,
                  Event.latencyObserve methodCount false,
                  Event.countResultObserve r.1])

/-- The Service behaviour of an MService: the returned values, with the
emitted events dropped. -/
def serviceView (m : MService) : Service where
  Uppercase := fun ctx s => (m.Uppercase ctx s).1
  Count := fun ctx s => (m.Count ctx s).1

/-- The service composed in main: the base stringService wrapped by the
logging middleware, wrapped by the instrumenting middleware. -/
def svcMain : Service :=
  serviceView (instrumentingMiddleware (loggingMiddleware (liftService stringServiceImpl)))

/- Section 4: request and response structures, src/main.go lines 50 to 65. -/

structure uppercaseRequest where
  S : GoStr
  deriving DecidableEq

structure uppercaseResponse where
  V : GoStr
  Err : GoStr
  deriving DecidableEq

structure countRequest where
  S : GoStr
  deriving DecidableEq

structure countResponse where
  V : Int
  deriving DecidableEq

/-- The empty interface type of endpoint requests: a nil interface value, a
uppercaseRequest, or a countRequest. -/
inductive AnyRequest
  | nilRequest
  | up (r : uppercaseRequest)
  | cnt (r : countRequest)
  deriving DecidableEq

/-- The empty interface type of endpoint responses. -/
inductive AnyResponse
  | up (r : uppercaseResponse)
  | cnt (r : countResponse)
  deriving DecidableEq

/- Section 5: endpoints, src/main.go lines 76 to 96. An endpoint returns
none when the type assertion on the request panics. -/

/-- makeUppercaseEndpoint creates an rpc endpoint for the Uppercase method:
it narrows the request to uppercaseRequest, delegates, and wraps the result
in a uppercaseResponse whose Err field carries the message of a business
error, returning a nil transport error in both branches. -/
def makeUppercaseEndpoint (svc : Service) : Ctx → AnyRequest → Option (AnyResponse × Option GoError) :=
  fun ctx request =>
    match request with
    | AnyRequest.up req =>
      let vr := svc.Uppercase ctx req.S
      match vr.2 with
      | some e => some (AnyResponse.up ⟨vr.1, e.Error⟩, none)
      | none => some (AnyResponse.up ⟨vr.1, []⟩, none)
    | _ => none

/-- makeCountEndpoint creates an rpc endpoint for the Count method: it
narrows the request to countRequest, delegates, and wraps the integer in a
countResponse with a nil transport error. -/
def makeCountEndpoint (svc : Service) : Ctx → AnyRequest → Option (AnyResponse × Option GoError) :=
  fun ctx request =>
    match request with
    | AnyRequest.cnt req => some (AnyResponse.cnt ⟨svc.Count ctx req.S⟩, none)
    | _ => none

/- Section 6: the JSON model and the transport decoders and encoder, from
src/unnamed/part_000 lines 127 to 147. -/

/-- A parsed JSON document. Numbers are modelled as integers, which covers
every document this service handles. -/
inductive Json
  | null
  | bool (b : Bool)
  | num (n : Int)
  | str (s : GoStr)
  | arr (xs : List Json)
  | obj (fields : List (GoStr × Json))

/-- The raw HTTP request body as seen by a decoder: parsed JSON, or bytes
that are not valid JSON. -/
inductive Body
  | json (j : Json)
  | malformed

/-- Model of the opaque error the json package reports for input that is
not valid JSON. -/
def errBadJson : GoError := ⟨['i', 'n', 'v', 'a', 'l', 'i', 'd', ' ', 'J', 'S', 'O', 'N']⟩

/-- Model of the opaque error the json package reports when a value cannot
be unmarshalled into the target type. -/
def errBadType : GoError := ⟨['c', 'a', 'n', 'n', 'o', 't', ' ', 'u', 'n', 'm', 'a', 'r', 's', 'h', 'a', 'l']⟩

/-- ASCII lowering of one scalar value, used for the case-insensitive field
name match of the json package. -/
def asciiLowerRune (c : Char) : Char :=
  if 65 ≤ c.toNat ∧ c.toNat ≤ 90 then Char.ofNat (c.toNat + 32) else c

/-- A JSON object key matches the field tagged s exactly or up to ASCII
case, as the json package matches keys. -/
def keyMatchS (k : GoStr) : Bool := k.map asciiLowerRune = ['s']

/-- Folds the fields of a JSON object into the single string field tagged
s: later matching keys overwrite earlier ones, a null value leaves the
field unchanged, a matching value of any other non-string shape is a type
error, and unknown keys are ignored. -/
def decodeStringField (acc : GoStr) : List (GoStr × Json) → Except GoError GoStr
  | [] => Except.ok acc
  | (k, v) :: rest =>
    if keyMatchS k then
      match v with
      | Json.str s => decodeStringField s rest
      | Json.null => decodeStringField acc rest
      | _ => Except.error errBadType
    else decodeStringField acc rest

/-- Model of unmarshalling a JSON document into a struct with one string
field tagged s: null leaves the zero value, an object is folded field by
field, and any other document shape is a type error. -/
def decodeSObject : Json → Except GoError GoStr
  | Json.null => Except.ok []
  | Json.obj fields => decodeStringField [] fields
  | _ => Except.error errBadType

/-- Model of json Decode applied to a request body for a target struct with
one string field tagged s, shared by both request types. -/
def jsonDecodeSField (body : Body) : Except GoError GoStr :=
  match body with
  | Body.malformed => Except.error errBadJson
  | Body.json j => decodeSObject j

/-- decodeUppercaseRequest deserializes the body into a uppercaseRequest,
returning a nil request and the error when deserialization fails. -/
def decodeUppercaseRequest (_ctx : Ctx) (body : Body) : AnyRequest × Option GoError :=
  match jsonDecodeSField body with
  | Except.error e => (AnyRequest.nilRequest, some e)
  | Except.ok s => (AnyRequest.up ⟨s⟩, none)

/-- decodCountRequest deserializes the body into a countRequest, returning
a nil request and the error when deserialization fails. -/
def decodCountRequest (_ctx : Ctx) (body : Body) : AnyRequest × Option GoError :=
  match jsonDecodeSField body with
  | Except.error e => (AnyRequest.nilRequest, some e)
  | Except.ok s => (AnyRequest.cnt ⟨s⟩, none)

/-- Lowercase hexadecimal digit, as printed by the json package in its
escape sequences. -/
def hexDigit (n : Nat) : Char :=
  if n < 10 then Char.ofNat (48 + n) else Char.ofNat (87 + n)

/-- A six character unicode escape sequence for one scalar value below
the basic multilingual plane boundary used by the json package. -/
def uEscape (n : Nat) : List Char :=
  ['\\', 'u', hexDigit (n / 4096 % 16), hexDigit (n / 256 % 16),
   hexDigit (n / 16 % 16), hexDigit (n % 16)]

/-- Escaping of one scalar value inside a JSON string literal as done by
the json package with its default HTML escaping. -/
def jsonEscapeChar (c : Char) : List Char :=
  if c = '"' then ['\\', '"']
  else if c = '\\' then ['\\', '\\']
  else if c = '\n' then ['\\', 'n']
  else if c = '\r' then ['\\', 'r']
  else if c = '\t' then ['\\', 't']
  else if c.toNat < 32 then uEscape c.toNat
  else if c = '<' ∨ c = '>' ∨ c = '&' then uEscape c.toNat
  else if c.toNat = 8232 ∨ c.toNat = 8233 then uEscape c.toNat
  else [c]

/-- A JSON string literal: the escaped scalar values between two quotes. -/
def quoteJson (s : GoStr) : GoStr :=
  '"' :: (s.map jsonEscapeChar).flatten ++ ['"']

/-- Decimal rendering of an integer, as the json package prints an int. -/
def intChars (i : Int) : GoStr :=
  if i < 0 then '-' :: Nat.toDigits 10 (-i).toNat else Nat.toDigits 10 i.toNat

/-- JSON marshalling of a uppercaseResponse: the v field always, the err
field only when it is non-empty because of its omitempty tag, and the
trailing newline written by the streaming encoder. -/
def encodeUppercaseResponse (r : uppercaseResponse) : GoStr :=
  ['\x7b'] ++ quoteJson ['v'] ++ [':'] ++ quoteJson r.V
    ++ (if r.Err = [] then [] else [','] ++ quoteJson ['e', 'r', 'r'] ++ [':'] ++ quoteJson r.Err)
    ++ ['\x7d', '\n']

/-- JSON marshalling of a countResponse: the single integer field named V,
and the trailing newline written by the streaming encoder. -/
def encodeCountResponse (r : countResponse) : GoStr :=
  ['\x7b'] ++ quoteJson ['V'] ++ [':'] ++ intChars r.V ++ ['\x7d', '\n']

/-- encodeResponse writes the JSON marshalling of the response value to the
response writer; this model returns the written bytes. -/
def encodeResponse (resp : AnyResponse) : GoStr :=
  match resp with
  | AnyResponse.up r => encodeUppercaseResponse r
  | AnyResponse.cnt r => encodeCountResponse r

/- Section 7: the transport server loop of the go-kit http server that the
handlers in main are built from. -/

/-- Outcome of one HTTP exchange: a transport-level error response, a
success response with the encoded body, or a panic of the handler. -/
inductive HttpOutcome
  | transportError (e : GoError)
  | success (body : GoStr)
  | panicked
  deriving DecidableEq

/-- The decode, invoke, encode loop of the go-kit http server: a decoder
error is surfaced as a transport error without invoking the endpoint, an
endpoint error is surfaced as a transport error, and otherwise the encoded
response is written. -/
def serveHTTP (dec : Ctx → Body → AnyRequest × Option GoError)
    (ep : Ctx → AnyRequest → Option (AnyResponse × Option GoError))
    (enc : AnyResponse → GoStr) (ctx : Ctx) (body : Body) : HttpOutcome :=
  match dec ctx body with
  | (_, some e) => HttpOutcome.transportError e
  | (req, none) =>
    match ep ctx req with
    | none => HttpOutcome.panicked
    | some (_, some e) => HttpOutcome.transportError e
    | some (resp, none) => HttpOutcome.success (enc resp)

/-- The handler registered on the uppercase route in main. -/
def uppercaseHandler (ctx : Ctx) (body : Body) : HttpOutcome :=
  serveHTTP decodeUppercaseRequest (makeUppercaseEndpoint svcMain) encodeResponse ctx body

/-- The handler registered on the count route in main. -/
def countHandler (ctx : Ctx) (body : Body) : HttpOutcome :=
  serveHTTP decodCountRequest (makeCountEndpoint svcMain) encodeResponse ctx body

/- Section 8: the specification side notion of code units for Count. -/

/-- The UTF-8 encoding of one scalar value, by its byte count. -/
def utf8EncodeChar (c : Char) : List Nat :=
  let v := c.toNat
  if c.utf8Size = 1 then [v]
  else if c.utf8Size = 2 then [192 + v / 64, 128 + v % 64]
  else if c.utf8Size = 3 then [224 + v / 4096, 128 + v / 64 % 64, 128 + v % 64]
  else [240 + v / 262144, 128 + v / 4096 % 64, 128 + v / 64 % 64, 128 + v % 64]

/-- The UTF-8 code units of a string: the concatenation of the encodings of
its scalar values. -/
def utf8Bytes (s : GoStr) : List Nat :=
  (s.map utf8EncodeChar).flatten

/- Section 9: helper lemmas shared by the claim theorems. -/

theorem toNat_ofNat_of_lt (n : Nat) (h : n < 55296) : (Char.ofNat n).toNat = n := by
  have hv : n.isValidChar := Or.inl h
  simp only [Char.ofNat, hv, dif_pos, Char.ofNatAux, Char.toNat]
  rfl

theorem toUpperRune_idem (c : Char) : toUpperRune (toUpperRune c) = toUpperRune c := by
  unfold toUpperRune
  split
  case isTrue h =>
    have hn : (Char.ofNat (c.toNat - 32)).toNat = c.toNat - 32 :=
      toNat_ofNat_of_lt _ (by omega)
    rw [if_neg (by rw [hn]; omega)]
  case isFalse h => rfl

theorem goToUpper_idem (s : GoStr) : goToUpper (goToUpper s) = goToUpper s := by
  simp only [goToUpper, List.map_map]
  exact List.map_congr_left fun a _ => toUpperRune_idem a

theorem utf8Size_cases (c : Char) :
    c.utf8Size = 1 ∨ c.utf8Size = 2 ∨ c.utf8Size = 3 ∨ c.utf8Size = 4 := by
  simp only [Char.utf8Size]
  repeat' split
  all_goals simp

theorem length_utf8EncodeChar (c : Char) : (utf8EncodeChar c).length = c.utf8Size := by
  rcases utf8Size_cases c with h | h | h | h <;> simp [utf8EncodeChar, h]

theorem utf8Bytes_length (s : GoStr) : (utf8Bytes s).length = goLen s := by
  induction s with
  | nil => rfl
  | cons c cs ih =>
    simp only [utf8Bytes, goLen, List.map_cons, List.flatten_cons, List.length_append,
      List.sum_cons, length_utf8EncodeChar] at *
    omega

theorem makeUppercaseEndpoint_up_isSome (svc : Service) (ctx : Ctx) (req : uppercaseRequest) :
    (makeUppercaseEndpoint svc ctx (AnyRequest.up req)).isSome = true := by
  simp only [makeUppercaseEndpoint]
  cases h : (svc.Uppercase ctx req.S).2 <;> simp [h]

theorem makeCountEndpoint_cnt_isSome (svc : Service) (ctx : Ctx) (req : countRequest) :
    (makeCountEndpoint svc ctx (AnyRequest.cnt req)).isSome = true := rfl

/- Section 10: one theorem per claim. -/

/-- C1: for every non-empty string s and any context, Uppercase returns the
uppercase transform of s, the rune-wise case mapping of the host modelled
by goToUpper, together with a nil error. -/
theorem uppercase_nonempty_ok (ctx : Ctx) (s : GoStr) (h : s ≠ []) :
    stringService.Uppercase ctx s = (goToUpper s, none) := by
  simp [stringService.Uppercase, h]

/-- Witness for C1 at a concrete non-empty input. -/
theorem uppercase_nonempty_ok_wit :
    (['a', 'b', 'C'] : GoStr) ≠ [] ∧
      stringService.Uppercase ⟨0⟩ ['a', 'b', 'C'] = (goToUpper ['a', 'b', 'C'], none) :=
  ⟨by decide, uppercase_nonempty_ok ⟨0⟩ ['a', 'b', 'C'] (by decide)⟩

/-- C2: Uppercase returns a non-nil error exactly on the empty string, in
which case it returns the empty success value next to ErrEmpty, whose
message reads empty string. -/
theorem uppercase_err_iff_empty (ctx : Ctx) (s : GoStr) :
    ((stringService.Uppercase ctx s).2 ≠ none ↔ s = []) ∧
    (s = [] → stringService.Uppercase ctx s = ([], some ErrEmpty)) ∧
    ErrEmpty.msg = ['e', 'm', 'p', 't', 'y', ' ', 's', 't', 'r', 'i', 'n', 'g'] := by
  refine ⟨?_, ?_, rfl⟩
  · by_cases h : s = [] <;> simp [stringService.Uppercase, h]
  · intro h
    simp [stringService.Uppercase, h]

/-- Witness for C2 at the empty input. -/
theorem uppercase_err_iff_empty_wit :
    stringService.Uppercase ⟨0⟩ [] = ([], some ErrEmpty) :=
  (uppercase_err_iff_empty ⟨0⟩ []).2.1 rfl

/-- C3: for every string and any context, Count equals the number of UTF-8
code units of the string, and it returns zero on the empty string; its
result type carries no error channel. -/
theorem count_matches_code_units (ctx : Ctx) (s : GoStr) :
    stringService.Count ctx s = ((utf8Bytes s).length : Int) ∧
    stringService.Count ctx [] = 0 := by
  refine ⟨?_, rfl⟩
  simp [stringService.Count, goLen, utf8Bytes_length, goLen.eq_1]

/-- C4: on a request of the expected shape, both endpoints built over the
composed service of main return a nil transport error; a business error of
the inner Uppercase is carried as the message text in the Err field of the
response, next to an empty V field, and on success the Err field is
empty. -/
theorem endpoints_no_transport_error (ctx : Ctx) (r : uppercaseRequest) (rc : countRequest) :
    (∃ resp : uppercaseResponse,
        makeUppercaseEndpoint svcMain ctx (AnyRequest.up r) = some (AnyResponse.up resp, none) ∧
        (∀ e, (stringService.Uppercase ctx r.S).2 = some e → resp.Err = e.msg ∧ resp.V = []) ∧
        ((stringService.Uppercase ctx r.S).2 = none → resp.Err = [])) ∧
    makeCountEndpoint svcMain ctx (AnyRequest.cnt rc) =
      some (AnyResponse.cnt ⟨stringService.Count ctx rc.S⟩, none) := by
  refine ⟨?_, rfl⟩
  by_cases h : r.S = []
  · have hvr : svcMain.Uppercase ctx r.S = ([], some ErrEmpty) := by
      show stringService.Uppercase ctx r.S = ([], some ErrEmpty)
      simp [stringService.Uppercase, h]
    refine ⟨⟨[], ErrEmpty.msg⟩, ?_, ?_, ?_⟩
    · simp only [makeUppercaseEndpoint]
      rw [hvr]
      rfl
    · intro e he
      rw [show (stringService.Uppercase ctx r.S) = ([], some ErrEmpty) from hvr] at he
      simp at he
      subst he
      exact ⟨rfl, rfl⟩
    · intro he
      rw [show (stringService.Uppercase ctx r.S) = ([], some ErrEmpty) from hvr] at he
      simp at he
  · have hvr : svcMain.Uppercase ctx r.S = (goToUpper r.S, none) := by
      show stringService.Uppercase ctx r.S = (goToUpper r.S, none)
      simp [stringService.Uppercase, h]
    refine ⟨⟨goToUpper r.S, []⟩, ?_, ?_, fun _ => rfl⟩
    · simp only [makeUppercaseEndpoint]
      rw [hvr]
    · intro e he
      rw [show (stringService.Uppercase ctx r.S) = (goToUpper r.S, none) from hvr] at he
      simp at he

/-- Witness for C4 at a failing uppercase request and a concrete count
request. -/
theorem endpoints_no_transport_error_wit :
    makeUppercaseEndpoint svcMain ⟨0⟩ (AnyRequest.up ⟨[]⟩) =
      some (AnyResponse.up ⟨[], ErrEmpty.msg⟩, none) ∧
    makeCountEndpoint svcMain ⟨0⟩ (AnyRequest.cnt ⟨['h', 'i']⟩) =
      some (AnyResponse.cnt ⟨2⟩, none) := by
  obtain ⟨⟨resp, h1, h2, h3⟩, h4⟩ := endpoints_no_transport_error ⟨0⟩ ⟨[]⟩ ⟨['h', 'i']⟩
  have hresp : resp = ⟨[], ErrEmpty.msg⟩ := by
    obtain ⟨hErr, hV⟩ := h2 ErrEmpty (by decide)
    cases resp
    simp_all
  subst hresp
  refine ⟨h1, ?_⟩
  have hc : stringService.Count ⟨0⟩ ['h', 'i'] = 2 := by decide
  rw [hc] at h4
  exact h4

/-- C5: the JSON encoding of a uppercaseResponse omits the err key on
success and writes a non-empty err string on failure, and the three
end-to-end scenarios produce the specified bodies: uppercase of hello,
uppercase of the empty string, and count of hello, each followed by the
newline written by the streaming encoder. -/
theorem uppercase_json_encoding (v e : GoStr) (he : e ≠ []) :
    encodeResponse (AnyResponse.up ⟨v, []⟩) =
      ['\x7b'] ++ quoteJson ['v'] ++ [':'] ++ quoteJson v ++ ['\x7d', '\n'] ∧
    encodeResponse (AnyResponse.up ⟨v, e⟩) =
      ['\x7b'] ++ quoteJson ['v'] ++ [':'] ++ quoteJson v ++ [','] ++ quoteJson ['e', 'r', 'r']
        ++ [':'] ++ quoteJson e ++ ['\x7d', '\n'] ∧
    uppercaseHandler ⟨0⟩ (Body.json (Json.obj [(['s'], Json.str ['h', 'e', 'l', 'l', 'o'])])) =
      HttpOutcome.success ['\x7b', '"', 'v', '"', ':', '"', 'H', 'E', 'L', 'L', 'O', '"', '\x7d', '\n'] ∧
    uppercaseHandler ⟨0⟩ (Body.json (Json.obj [(['s'], Json.str [])])) =
      HttpOutcome.success ['\x7b', '"', 'v', '"', ':', '"', '"', ',', '"', 'e', 'r', 'r', '"', ':',
        '"', 'e', 'm', 'p', 't', 'y', ' ', 's', 't', 'r', 'i', 'n', 'g', '"', '\x7d', '\n'] ∧
    countHandler ⟨0⟩ (Body.json (Json.obj [(['s'], Json.str ['h', 'e', 'l', 'l', 'o'])])) =
      HttpOutcome.success ['\x7b', '"', 'V', '"', ':', '5', '\x7d', '\n'] := by
  refine ⟨?_, ?_, by decide, by decide, by decide⟩
  · simp [encodeResponse, encodeUppercaseResponse]
  · simp [encodeResponse, encodeUppercaseResponse, he]

/-- Witness for C5 at a concrete non-empty error string. -/
theorem uppercase_json_encoding_wit :
    encodeResponse (AnyResponse.up ⟨['X'], ['b', 'a', 'd']⟩) =
      ['\x7b'] ++ quoteJson ['v'] ++ [':'] ++ quoteJson ['X'] ++ [','] ++ quoteJson ['e', 'r', 'r']
        ++ [':'] ++ quoteJson ['b', 'a', 'd'] ++ ['\x7d', '\n'] :=
  (uppercase_json_encoding ['X'] ['b', 'a', 'd'] (by decide)).2.1

/-- C6: the service of main, the base stringService wrapped by the logging
and the instrumenting middleware, returns the same value and error from
Uppercase and the same integer from Count as the undecorated service, for
every context and input. -/
theorem decorated_service_transparent (ctx : Ctx) (s : GoStr) :
    svcMain.Uppercase ctx s = stringService.Uppercase ctx s ∧
    svcMain.Count ctx s = stringService.Count ctx s :=
  ⟨rfl, rfl⟩

/-- C7: when the body cannot be deserialized, either decoder returns a nil
request and a non-nil error and the server answers with a transport error
computed without invoking the endpoint, for every endpoint service; when
deserialization succeeds, the decoder returns the decoded request of the
expected shape with a nil error. -/
theorem decode_gates_endpoint (ctx : Ctx) (body : Body) (svc : Service) :
    (∀ e, (decodeUppercaseRequest ctx body).2 = some e →
        (decodeUppercaseRequest ctx body).1 = AnyRequest.nilRequest ∧
        serveHTTP decodeUppercaseRequest (makeUppercaseEndpoint svc) encodeResponse ctx body =
          HttpOutcome.transportError e) ∧
    ((decodeUppercaseRequest ctx body).2 = none →
        ∃ r : uppercaseRequest, (decodeUppercaseRequest ctx body).1 = AnyRequest.up r) ∧
    (∀ e, (decodCountRequest ctx body).2 = some e →
        (decodCountRequest ctx body).1 = AnyRequest.nilRequest ∧
        serveHTTP decodCountRequest (makeCountEndpoint svc) encodeResponse ctx body =
          HttpOutcome.transportError e) ∧
    ((decodCountRequest ctx body).2 = none →
        ∃ r : countRequest, (decodCountRequest ctx body).1 = AnyRequest.cnt r) := by
  cases hd : jsonDecodeSField body with
  | error e0 =>
    have h1 : decodeUppercaseRequest ctx body = (AnyRequest.nilRequest, some e0) := by
      simp [decodeUppercaseRequest, hd]
    have h2 : decodCountRequest ctx body = (AnyRequest.nilRequest, some e0) := by
      simp [decodCountRequest, hd]
    refine ⟨fun e he => ?_, fun hn => ?_, fun e he => ?_, fun hn => ?_⟩
    · rw [h1] at he
      simp at he
      subst he
      exact ⟨by rw [h1], by simp [serveHTTP, h1]⟩
    · rw [h1] at hn
      simp at hn
    · rw [h2] at he
      simp at he
      subst he
      exact ⟨by rw [h2], by simp [serveHTTP, h2]⟩
    · rw [h2] at hn
      simp at hn
  | ok s0 =>
    have h1 : decodeUppercaseRequest ctx body = (AnyRequest.up ⟨s0⟩, none) := by
      simp [decodeUppercaseRequest, hd]
    have h2 : decodCountRequest ctx body = (AnyRequest.cnt ⟨s0⟩, none) := by
      simp [decodCountRequest, hd]
    refine ⟨fun e he => ?_, fun _ => ⟨⟨s0⟩, by rw [h1]⟩, fun e he => ?_, fun _ => ⟨⟨s0⟩, by rw [h2]⟩⟩
    · rw [h1] at he
      simp at he
    · rw [h2] at he
      simp at he

/-- Witness for C7 at a malformed body. -/
theorem decode_gates_endpoint_wit :
    (decodeUppercaseRequest ⟨0⟩ Body.malformed).1 = AnyRequest.nilRequest ∧
    serveHTTP decodeUppercaseRequest (makeUppercaseEndpoint svcMain) encodeResponse ⟨0⟩
      Body.malformed = HttpOutcome.transportError errBadJson :=
  (decode_gates_endpoint ⟨0⟩ Body.malformed svcMain).1 errBadJson (by decide)

/-- C8: a request value produced by the paired decoder with a nil error
makes the runtime narrowing inside the corresponding endpoint succeed, so
the panicking branch of the type assertion is unreachable. -/
theorem paired_decoder_cast_safe (ctx ctx2 : Ctx) (body : Body) (svc : Service) :
    ((decodeUppercaseRequest ctx body).2 = none →
      (makeUppercaseEndpoint svc ctx2 (decodeUppercaseRequest ctx body).1).isSome = true) ∧
    ((decodCountRequest ctx body).2 = none →
      (makeCountEndpoint svc ctx2 (decodCountRequest ctx body).1).isSome = true) := by
  cases hd : jsonDecodeSField body with
  | error e0 =>
    constructor <;> intro hn <;> simp [decodeUppercaseRequest, decodCountRequest, hd] at hn
  | ok s0 =>
    have h1 : (decodeUppercaseRequest ctx body).1 = AnyRequest.up ⟨s0⟩ := by
      simp [decodeUppercaseRequest, hd]
    have h2 : (decodCountRequest ctx body).1 = AnyRequest.cnt ⟨s0⟩ := by
      simp [decodCountRequest, hd]
    constructor
    · intro _
      rw [h1]
      exact makeUppercaseEndpoint_up_isSome svc ctx2 ⟨s0⟩
    · intro _
      rw [h2]
      exact makeCountEndpoint_cnt_isSome svc ctx2 ⟨s0⟩

/-- Witness for C8 at a JSON null body, which decodes to the zero-valued
request. -/
theorem paired_decoder_cast_safe_wit :
    (makeUppercaseEndpoint svcMain ⟨0⟩ (decodeUppercaseRequest ⟨1⟩ (Body.json Json.null)).1).isSome = true ∧
    (makeCountEndpoint svcMain ⟨0⟩ (decodCountRequest ⟨1⟩ (Body.json Json.null)).1).isSome = true := by
  have h := paired_decoder_cast_safe ⟨1⟩ ⟨0⟩ (Body.json Json.null) svcMain
  exact ⟨h.1 (by decide), h.2 (by decide)⟩

/-- C9: for every non-empty string, the successful result of Uppercase is
again non-empty, and applying Uppercase to it succeeds and returns it
unchanged, under any pair of contexts. -/
theorem uppercase_idempotent (ctx ctx2 : Ctx) (s : GoStr) (h : s ≠ []) :
    (stringService.Uppercase ctx s).1 ≠ [] ∧
    stringService.Uppercase ctx2 (stringService.Uppercase ctx s).1 =
      ((stringService.Uppercase ctx s).1, none) := by
  have h1 : stringService.Uppercase ctx s = (goToUpper s, none) := by
    simp [stringService.Uppercase, h]
  have hne : goToUpper s ≠ [] := by
    intro hc
    apply h
    simpa [goToUpper, List.map_eq_nil_iff] using hc
  rw [h1]
  refine ⟨hne, ?_⟩
  simp [stringService.Uppercase, hne, goToUpper_idem]

/-- Witness for C9 at a concrete mixed-case input. -/
theorem uppercase_idempotent_wit :
    (stringService.Uppercase ⟨0⟩ ['a', 'B']).1 ≠ [] ∧
    stringService.Uppercase ⟨1⟩ (stringService.Uppercase ⟨0⟩ ['a', 'B']).1 =
      ((stringService.Uppercase ⟨0⟩ ['a', 'B']).1, none) :=
  uppercase_idempotent ⟨0⟩ ⟨1⟩ ['a', 'B'] (by decide)

/-- C10: both operations ignore the context argument entirely: any two
contexts give the same value and error from Uppercase and the same integer
from Count, so the results depend only on the input string. -/
theorem ops_ignore_context (ctx1 ctx2 : Ctx) (s : GoStr) :
    stringService.Uppercase ctx1 s = stringService.Uppercase ctx2 s ∧
    stringService.Count ctx1 s = stringService.Count ctx2 s :=
  ⟨rfl, rfl⟩
